import Mathlib

/-!
Shallow embedding of the Securely websdk (browser JS client).

The embedding translates the pure request-construction logic of
`securely.js` and its sibling revisions into Lean functions:

* `JsVal` models the JSON-compatible JavaScript values flowing through the
  SDK (including `bigint`, which `JSON.stringify` cannot serialize and which
  `deepConvertBigIntToString` rewrites to decimal strings);
* `securelyCall` models the transport wrapper: URL construction, header
  construction, the JSON-RPC envelope with the process-wide request-id
  counter (explicit state passing), and the non-2xx failure path;
* `securelyCallAutoAuth` models the auto-authentication orchestrator: the
  provider scan and the conditional interactive exchange, parameterized by
  the provider list the backend returned and by the payload the exchange
  resolves with;
* `messageHandler` / `closeButtonHandler` model the interactive exchange's
  event handlers as transformers of an explicit `ExchangeState`.
-/

namespace Websdk

/-- A JSON-compatible JavaScript value, as handled by the SDK: `null`,
booleans, numbers, strings, bigints, arrays and plain objects (ordered
field lists). -/
inductive JsVal where
  | null
  | bool (b : Bool)
  | num (n : Int)
  | str (s : String)
  | bigint (n : Int)
  | arr (elems : List JsVal)
  | obj (fields : List (String × JsVal))
deriving Repr

/-- Structural induction for `JsVal` with elementwise hypotheses for the
nested lists in `arr` and `obj`. -/
theorem JsVal.inductionOn (P : JsVal → Prop)
    (hnull : P .null) (hbool : ∀ b, P (.bool b)) (hnum : ∀ n, P (.num n))
    (hstr : ∀ s, P (.str s)) (hbig : ∀ n, P (.bigint n))
    (harr : ∀ elems, (∀ v ∈ elems, P v) → P (.arr elems))
    (hobj : ∀ fields, (∀ kv ∈ fields, P kv.2) → P (.obj fields)) :
    ∀ v, P v
  | .null => hnull
  | .bool b => hbool b
  | .num n => hnum n
  | .str s => hstr s
  | .bigint n => hbig n
  | .arr elems =>
      harr elems (fun v hv =>
        have : sizeOf v < 1 + sizeOf elems := by
          have := List.sizeOf_lt_of_mem hv
          omega
        JsVal.inductionOn P hnull hbool hnum hstr hbig harr hobj v)
  | .obj fields =>
      hobj fields (fun kv hkv =>
        have : sizeOf kv.2 < 1 + sizeOf fields := by
          have h1 := List.sizeOf_lt_of_mem hkv
          have h2 : sizeOf kv.2 < sizeOf kv := by
            obtain ⟨k, v⟩ := kv
            simp [Prod.mk.sizeOf_spec]
          omega
        JsVal.inductionOn P hnull hbool hnum hstr hbig harr hobj kv.2)
termination_by v => sizeOf v

/-- The helper nested inside `securelyCall` (part_000 lines 231-239,
part_002 lines 184-192): a `bigint` becomes its decimal string, arrays and
objects are converted recursively via `map`, and every other value is
returned unchanged. -/
def deepConvertBigIntToString : JsVal → JsVal
  | .bigint n => .str (toString n)
  | .arr elems => .arr (elems.attach.map fun v => deepConvertBigIntToString v.1)
  | .obj fields => .obj (fields.attach.map fun kv => (kv.1.1, deepConvertBigIntToString kv.1.2))
  | v => v
termination_by v => sizeOf v
decreasing_by
  · have := List.sizeOf_lt_of_mem v.2
    simp only [JsVal.arr.sizeOf_spec]
    omega
  · have h1 := List.sizeOf_lt_of_mem kv.2
    obtain ⟨⟨k, v⟩, hk⟩ := kv
    simp only [JsVal.obj.sizeOf_spec]
    simp only [Prod.mk.sizeOf_spec] at h1
    omega

theorem deepConvertBigIntToString_arr (elems : List JsVal) :
    deepConvertBigIntToString (.arr elems) = .arr (elems.map deepConvertBigIntToString) := by
  rw [deepConvertBigIntToString]
  simp [List.map_attach]

theorem deepConvertBigIntToString_obj (fields : List (String × JsVal)) :
    deepConvertBigIntToString (.obj fields)
      = .obj (fields.map fun kv => (kv.1, deepConvertBigIntToString kv.2)) := by
  rw [deepConvertBigIntToString]
  simp [List.map_attach]

mutual

/-- `true` when no `bigint` occurs anywhere in the value. -/
def noBigInt : JsVal → Bool
  | .bigint _ => false
  | .arr elems => noBigIntArr elems
  | .obj fields => noBigIntObj fields
  | _ => true

/-- `noBigInt` over the elements of an array. -/
def noBigIntArr : List JsVal → Bool
  | [] => true
  | v :: vs => noBigInt v && noBigIntArr vs

/-- `noBigInt` over the field values of an object. -/
def noBigIntObj : List (String × JsVal) → Bool
  | [] => true
  | kv :: kvs => noBigInt kv.2 && noBigIntObj kvs

end

theorem noBigIntArr_eq_all (elems : List JsVal) :
    noBigIntArr elems = elems.all noBigInt := by
  induction elems with
  | nil => rfl
  | cons v vs ih => simp [noBigIntArr, ih]

theorem noBigIntObj_eq_all (fields : List (String × JsVal)) :
    noBigIntObj fields = fields.all fun kv => noBigInt kv.2 := by
  induction fields with
  | nil => rfl
  | cons kv kvs ih => simp [noBigIntObj, ih]

theorem deepConvert_noBigInt (v : JsVal) :
    noBigInt (deepConvertBigIntToString v) = true := by
  induction v using JsVal.inductionOn with
  | hnull => simp [deepConvertBigIntToString, noBigInt]
  | hbool b => simp [deepConvertBigIntToString, noBigInt]
  | hnum n => simp [deepConvertBigIntToString, noBigInt]
  | hstr s => simp [deepConvertBigIntToString, noBigInt]
  | hbig n => simp [deepConvertBigIntToString, noBigInt]
  | harr elems ih =>
      rw [deepConvertBigIntToString_arr, noBigInt, noBigIntArr_eq_all, List.all_eq_true]
      intro x hx
      rw [List.mem_map] at hx
      obtain ⟨v, hv, rfl⟩ := hx
      exact ih v hv
  | hobj fields ih =>
      rw [deepConvertBigIntToString_obj, noBigInt, noBigIntObj_eq_all, List.all_eq_true]
      intro x hx
      rw [List.mem_map] at hx
      obtain ⟨kv, hkv, rfl⟩ := hx
      exact ih kv hkv

theorem deepConvert_idem (v : JsVal) :
    deepConvertBigIntToString (deepConvertBigIntToString v) = deepConvertBigIntToString v := by
  induction v using JsVal.inductionOn with
  | hnull => simp [deepConvertBigIntToString]
  | hbool b => simp [deepConvertBigIntToString]
  | hnum n => simp [deepConvertBigIntToString]
  | hstr s => simp [deepConvertBigIntToString]
  | hbig n => simp [deepConvertBigIntToString]
  | harr elems ih =>
      rw [deepConvertBigIntToString_arr, deepConvertBigIntToString_arr, List.map_map]
      refine congrArg JsVal.arr (List.map_congr_left fun v hv => ?_)
      simp [Function.comp, ih v hv]
  | hobj fields ih =>
      rw [deepConvertBigIntToString_obj, deepConvertBigIntToString_obj, List.map_map]
      refine congrArg JsVal.obj (List.map_congr_left fun kv hkv => ?_)
      simp [Function.comp, ih kv hkv]

/-! ### Configuration and the request-id counter -/

/-- `getBaseUrl` (securely.js lines 17-19): the backend origin, selected by
the process-wide dev-mode flag. -/
def getBaseUrl (devMode : Bool) : String :=
  if devMode then "https://dev.securely.id" else "https://prod.securely.id"

/-- `getAuthUrl` (securely.js lines 21-23): the authentication origin,
selected by the process-wide dev-mode flag. -/
def getAuthUrl (devMode : Bool) : String :=
  if devMode then "https://auth-dev.securely.id" else "https://auth.securely.id"

/-- The initial value of the module-level `requestIdCounter` (securely.js
line 11: `let requestIdCounter = 1`). -/
def initialRequestIdCounter : Nat := 1

/-- `getNextRequestId` (securely.js lines 25-27): `requestIdCounter++`
returns the current counter and leaves it incremented; the mutable module
variable becomes explicit state passing. -/
def getNextRequestId (counter : Nat) : Nat × Nat :=
  (counter, counter + 1)

/-! ### The transport call: `securelyCall` -/

/-- JavaScript-truthiness of an optional string (`undefined`/`null` map to
`none`): `none` and the empty string are falsy. -/
def jsTruthy : Option String → Bool
  | none => false
  | some s => !(s == "")

/-- The message of `new Error(x)`: the argument when present, and the empty
string when the argument is `undefined` (securely.js line 92 reads
`response.error`, which a response may not carry). -/
def jsErrorMessage : Option String → String
  | some s => s
  | none => ""

/-- The error the transport rejects with on a non-2xx HTTP response (the
spec's `TransportError`; the source throws a plain `Error`). -/
structure TransportError where
  message : String
deriving Repr, DecidableEq

/-- The `fetch` response as read by `securelyCall`: the `ok` flag, the
`error` property the code passes to `new Error` (absent on a standard
`Response`), and the parsed JSON body. -/
structure FetchResponse where
  ok : Bool
  error : Option String
  body : JsVal

/-- One HTTP request as assembled by `securelyCall` before `fetch`. -/
structure Request where
  url : String
  httpMethod : String
  headers : List (String × String)
  body : JsVal

/-- The endpoint suffix of the target URL (securely.js lines 87-90): a
non-empty endpoint gets `/` prepended, the empty string stays empty, and a
`null` endpoint is template-interpolated as the literal text `null`. -/
def endpointSuffix : Option String → String
  | none => "null"
  | some e => if e.length ≠ 0 then "/" ++ e else e

/-- The target URL of `securelyCall`:
`` `${getBaseUrl()}/api/v0${endpoint}` `` after the endpoint rewrite. -/
def buildUrl (devMode : Bool) (endpoint : Option String) : String :=
  getBaseUrl devMode ++ "/api/v0" ++ endpointSuffix endpoint

/-- The headers of `securelyCall` (securely.js lines 71-76):
`Content-Type` always; `Authorization: Bearer <token>` only when
`token != null` (JavaScript loose inequality, which also excludes
`undefined`). -/
def callHeaders : Option String → List (String × String)
  | some t => [("Content-Type", "application/json"), ("Authorization", "Bearer " ++ t)]
  | none => [("Content-Type", "application/json")]

/-- The headers of the part_000/part_002 `securelyCall` revision (lines
242-247 resp. 195-200), which spreads the Authorization entry
conditionally: `...(token && { Authorization: Bearer ... })`, so the header
is attached exactly when the token is truthy. -/
def callHeadersSpread (token : Option String) : List (String × String) :=
  ("Content-Type", "application/json") ::
    (if jsTruthy token then [("Authorization", "Bearer " ++ (token.getD ""))] else [])

/-- The JSON-RPC 2.0 envelope built by `securelyCall` (securely.js lines
80-85). -/
def rpcEnvelope (method : String) (params : JsVal) (id : Nat) : JsVal :=
  .obj [("jsonrpc", .str "2.0"), ("method", .str method),
        ("params", params), ("id", .num (id : Int))]

/-- The `id` field of a request's JSON-RPC envelope. -/
def Request.rpcId (r : Request) : Option JsVal :=
  match r.body with
  | .obj fields => fields.lookup "id"
  | _ => none

/-- Everything observable about one `securelyCall` invocation: the requests
it passed to `fetch`, its outcome, and the request-id counter afterwards. -/
structure CallResult where
  requests : List Request
  outcome : Except TransportError JsVal
  nextCounter : Nat

/-- `securelyCall` (securely.js lines 69-99): builds the headers, consumes
one request id at envelope-construction time, issues exactly one POST to
the joined URL, returns the parsed body on success and throws
`new Error(response.error)` on a non-2xx status (the catch block re-throws
the same error, so the failure propagates unchanged and nothing retries). -/
def securelyCall (devMode : Bool) (method : String) (endpoint : Option String)
    (params : JsVal) (token : Option String) (counter : Nat)
    (response : FetchResponse) : CallResult :=
  let (id, counter') := getNextRequestId counter
  let req : Request :=
    { url := buildUrl devMode endpoint
      httpMethod := "POST"
      headers := callHeaders token
      body := rpcEnvelope method params id }
  { requests := [req]
    outcome :=
      if response.ok then .ok response.body
      else .error ⟨jsErrorMessage response.error⟩
    nextCounter := counter' }

/-- A sequence of `securelyCall` invocations threading the request-id
counter, one oracle response per call. -/
def runCalls (devMode : Bool) (method : String) (endpoint : Option String)
    (params : JsVal) (token : Option String) :
    List FetchResponse → Nat → List CallResult
  | [], _ => []
  | r :: rs, counter =>
      let res := securelyCall devMode method endpoint params token counter r
      res :: runCalls devMode method endpoint params token rs res.nextCounter

/-! ### The auto-authentication orchestrator -/

/-- One provider entry of the `getProviders` result. -/
structure Provider where
  type : String
  name : String
deriving Repr, DecidableEq

/-- `toLowerCase()` over the characters of a string. -/
def jsToLower (s : String) : String :=
  String.mk (s.data.map Char.toLower)

/-- The provider test of the orchestrator's loop (securely.js line 56):
`provider.type.toLowerCase() === "auth" && provider.name.toLowerCase() ===
"webauthn"`. -/
def isWebauthnAuth (p : Provider) : Bool :=
  jsToLower p.type == "auth" && jsToLower p.name == "webauthn"

/-- The payload the interactive exchange resolves with; `token` is its
(possibly absent) `token` field read by the orchestrator. -/
structure AuthData where
  token : Option String
deriving Repr, DecidableEq

/-- The `for`-loop of `securelyCallAutoAuth` (securely.js lines 54-62),
reading the resolved exchange payload from the `authData` oracle. Returns
`(scanned, authCalls, token)`: how many providers the loop examined, how
many times `securelyAuth` ran (each run creates one UI surface), and the
token variable after the loop. The loop `break`s at the first matching
provider, right after the single `securelyAuth` await. -/
def providerScan (authData : AuthData) : List Provider → Nat × Nat × Option String
  | [] => (0, 0, none)
  | p :: rest =>
      if isWebauthnAuth p then (1, 1, authData.token)
      else
        let (scanned, calls, tok) := providerScan authData rest
        (scanned + 1, calls, tok)

/-- Everything observable about one `securelyCallAutoAuth` invocation. -/
structure AutoAuthRun where
  scanned : Nat
  authCalls : Nat
  finalCall : CallResult

/-- `securelyCallAutoAuth` (securely.js lines 49-67): awaits `getProviders`
(whose transport call consumes one request id), scans the decoded
`providers.result` list (`providersResult`), runs the interactive exchange
at the first webauthn/auth match, and issues the target call with the
obtained token (`null` when no provider matched). `authData` is the payload
the exchange would resolve with; `finalResponse` is the oracle response of
the final transport call. -/
def securelyCallAutoAuth (devMode : Bool) (method : String) (endpoint : Option String)
    (params : JsVal) (providersResult : List Provider) (authData : AuthData)
    (counter : Nat) (finalResponse : FetchResponse) : AutoAuthRun :=
  let counterAfterProviders := counter + 1
  let (scanned, authCalls, token) := providerScan authData providersResult
  { scanned := scanned
    authCalls := authCalls
    finalCall := securelyCall devMode method endpoint params token
      counterAfterProviders finalResponse }

/-! ### The interactive exchange's event handlers -/

/-- A cross-origin message event as consumed by `messageHandler`. -/
structure MessageEvent where
  origin : String
  data : AuthData
deriving Repr, DecidableEq

instance : DecidableEq (Except String AuthData) := fun a b =>
  match a, b with
  | .error x, .error y =>
      if h : x = y then .isTrue (by rw [h]) else .isFalse (by simp [h])
  | .ok x, .ok y =>
      if h : x = y then .isTrue (by rw [h]) else .isFalse (by simp [h])
  | .error _, .ok _ => .isFalse (by simp)
  | .ok _, .error _ => .isFalse (by simp)

/-- The observable state of one interactive exchange: whether the message
listener is registered, whether the overlay UI surface is in the document,
and how the promise settled (`.ok` resolved, `.error` rejected), if at
all. -/
structure ExchangeState where
  listenerRegistered : Bool
  overlayPresent : Bool
  settled : Option (Except String AuthData)
deriving Repr, DecidableEq

/-- The state right after `securelyAuth` creates the iframe overlay and
registers the message listener. -/
def securelyAuthStart : ExchangeState :=
  { listenerRegistered := true, overlayPresent := true, settled := none }

/-- A promise settles only once: later resolutions or rejections are
no-ops. -/
def settleOnce (s : Option (Except String AuthData)) (o : Except String AuthData) :
    Option (Except String AuthData) :=
  match s with
  | some r => some r
  | none => some o

/-- `messageHandler` (part_000 lines 180-194; securely.js lines 34-43
without the iframe branch): on an event whose origin equals the
authentication origin exactly, deregister the listener, remove the overlay
when the iframe strategy is in use, and resolve the promise with the event
payload; on any other origin, do nothing at all. -/
def messageHandler (authOrigin : String) (useIframe : Bool) (event : MessageEvent)
    (s : ExchangeState) : ExchangeState :=
  if event.origin == authOrigin then
    { listenerRegistered := false
      overlayPresent := if useIframe then false else s.overlayPresent
      settled := settleOnce s.settled (.ok event.data) }
  else s

/-- The close-button handler of the part_000 revision (lines 165-168): tear
down the overlay and reject the exchange. This is the only rejection path
any revision implements. -/
def closeButtonHandler (s : ExchangeState) : ExchangeState :=
  { s with overlayPresent := false
           settled := settleOnce s.settled (.error "Authentication canceled by user.") }

/-! ### Correlation keys -/

/-- `.replace(/^0x/, '')`: drop one leading `0x` when present. -/
def strip0x (s : String) : String :=
  match s.data with
  | '0' :: 'x' :: rest => String.mk rest
  | _ => s

/-- `computeMethodId` (securely.js lines 105-109): joins the chain id, the
`0x`-stripped dApp address and, when given, the `0x`-stripped function
selector with `-`. No other normalization happens; in particular the
letter case of the address and the selector is preserved. -/
def computeMethodId (chainId : Nat) (dappAddr : String)
    (functionSelector : Option String) : String :=
  match functionSelector with
  | some fs => toString chainId ++ "-" ++ strip0x dappAddr ++ "-" ++ strip0x fs
  | none => toString chainId ++ "-" ++ strip0x dappAddr

/-! ### Helper lemmas -/

theorem providerScan_of_match (authData : AuthData) :
    ∀ l : List Provider, (∃ p ∈ l, isWebauthnAuth p = true) →
      providerScan authData l = (l.findIdx isWebauthnAuth + 1, 1, authData.token) := by
  intro l
  induction l with
  | nil => rintro ⟨p, hp, -⟩; exact absurd hp (List.not_mem_nil p)
  | cons p rest ih =>
      intro h
      by_cases hp : isWebauthnAuth p = true
      · simp [providerScan, hp, List.findIdx_cons]
      · have htail : ∃ q ∈ rest, isWebauthnAuth q = true := by
          obtain ⟨q, hq, hq2⟩ := h
          rcases List.mem_cons.mp hq with rfl | hmem
          · exact absurd hq2 hp
          · exact ⟨q, hmem, hq2⟩
        simp [providerScan, hp, List.findIdx_cons, ih htail]

theorem providerScan_of_no_match (authData : AuthData) :
    ∀ l : List Provider, (∀ p ∈ l, isWebauthnAuth p = false) →
      providerScan authData l = (l.length, 0, none) := by
  intro l
  induction l with
  | nil => intro _; rfl
  | cons p rest ih =>
      intro h
      have hp : isWebauthnAuth p = false := h p (List.mem_cons_self p rest)
      have htail : ∀ q ∈ rest, isWebauthnAuth q = false :=
        fun q hq => h q (List.mem_cons_of_mem p hq)
      simp [providerScan, hp, ih htail]

theorem providerScan_token_absent (authData : AuthData) (htok : authData.token = none) :
    ∀ l : List Provider, (providerScan authData l).2.2 = none := by
  intro l
  induction l with
  | nil => rfl
  | cons p rest ih =>
      by_cases hp : isWebauthnAuth p = true
      · simp [providerScan, hp, htok]
      · simp only [providerScan, hp]
        simpa using ih

theorem rpcId_of_envelope (u : String) (hs : List (String × String)) (m : String)
    (p : JsVal) (i : Nat) :
    Request.rpcId { url := u, httpMethod := "POST", headers := hs, body := rpcEnvelope m p i }
      = some (.num (i : Int)) := rfl

theorem runCalls_rpcIds (devMode : Bool) (method : String) (endpoint : Option String)
    (params : JsVal) (token : Option String) :
    ∀ (responses : List FetchResponse) (c : Nat),
      (runCalls devMode method endpoint params token responses c).map
          (fun res => res.requests.map Request.rpcId)
        = (List.range' c responses.length).map fun n => [some (JsVal.num (Int.ofNat n))] := by
  intro responses
  induction responses with
  | nil => intro c; simp [runCalls]
  | cons r rs ih =>
      intro c
      simp only [runCalls, List.length_cons, List.range'_succ, List.map_cons]
      refine congrArg₂ List.cons ?_ ?_
      · rfl
      · have := ih (securelyCall devMode method endpoint params token c r).nextCounter
        simpa [securelyCall, getNextRequestId] using this

/-! ### Claim theorems -/

/-- C1. When the provider list returned by `getProviders` contains an entry
whose `type` is case-insensitively `"auth"` and whose `name` is
case-insensitively `"webauthn"`, `securelyCallAutoAuth` runs the
interactive exchange exactly once, stops the scan at the first matching
entry, and attaches the credential the exchange resolved with as the
bearer token of the final transport call. -/
theorem securelyCallAutoAuth_webauthn_present (devMode : Bool) (method : String)
    (endpoint : Option String) (params : JsVal) (providersResult : List Provider)
    (authData : AuthData) (cred : String) (counter : Nat) (resp : FetchResponse)
    (hmatch : ∃ p ∈ providersResult, isWebauthnAuth p = true)
    (hcred : authData.token = some cred) :
    (securelyCallAutoAuth devMode method endpoint params providersResult authData
        counter resp).authCalls = 1 ∧
    (securelyCallAutoAuth devMode method endpoint params providersResult authData
        counter resp).scanned = providersResult.findIdx isWebauthnAuth + 1 ∧
    (securelyCallAutoAuth devMode method endpoint params providersResult authData
        counter resp).finalCall.requests.length = 1 ∧
    ∀ req ∈ (securelyCallAutoAuth devMode method endpoint params providersResult authData
        counter resp).finalCall.requests,
      ("Authorization", "Bearer " ++ cred) ∈ req.headers := by
  have hscan := providerScan_of_match authData providersResult hmatch
  refine ⟨?_, ?_, ?_, ?_⟩ <;>
    simp [securelyCallAutoAuth, hscan, hcred, securelyCall, callHeaders]

/-- Witness for C1: one `Auth`/`WebAuthn` provider (mixed case), exchange
resolving with token `abc123`. -/
theorem securelyCallAutoAuth_webauthn_present_witness :
    (securelyCallAutoAuth false "validate" (some "1") .null
        [⟨"Auth", "WebAuthn"⟩] ⟨some "abc123"⟩ 1 ⟨true, none, .null⟩).authCalls = 1 ∧
    (securelyCallAutoAuth false "validate" (some "1") .null
        [⟨"Auth", "WebAuthn"⟩] ⟨some "abc123"⟩ 1 ⟨true, none, .null⟩).scanned
      = [(⟨"Auth", "WebAuthn"⟩ : Provider)].findIdx isWebauthnAuth + 1 ∧
    (securelyCallAutoAuth false "validate" (some "1") .null
        [⟨"Auth", "WebAuthn"⟩] ⟨some "abc123"⟩ 1 ⟨true, none, .null⟩).finalCall.requests.length = 1 ∧
    ∀ req ∈ (securelyCallAutoAuth false "validate" (some "1") .null
        [⟨"Auth", "WebAuthn"⟩] ⟨some "abc123"⟩ 1 ⟨true, none, .null⟩).finalCall.requests,
      ("Authorization", "Bearer " ++ "abc123") ∈ req.headers :=
  securelyCallAutoAuth_webauthn_present false "validate" (some "1") .null
    [⟨"Auth", "WebAuthn"⟩] ⟨some "abc123"⟩ "abc123" 1 ⟨true, none, .null⟩
    ⟨⟨"Auth", "WebAuthn"⟩, List.mem_singleton.mpr rfl, by decide⟩ rfl

/-- C2. When no provider matches `auth`/`webauthn` case-insensitively,
`securelyCallAutoAuth` never invokes `securelyAuth` (so no UI surface is
created), scans the whole list, and issues the single target call with the
`null` token, whose headers carry no `Authorization` entry. -/
theorem securelyCallAutoAuth_no_webauthn (devMode : Bool) (method : String)
    (endpoint : Option String) (params : JsVal) (providersResult : List Provider)
    (authData : AuthData) (counter : Nat) (resp : FetchResponse)
    (hnone : ∀ p ∈ providersResult, isWebauthnAuth p = false) :
    (securelyCallAutoAuth devMode method endpoint params providersResult authData
        counter resp).authCalls = 0 ∧
    (securelyCallAutoAuth devMode method endpoint params providersResult authData
        counter resp).scanned = providersResult.length ∧
    (securelyCallAutoAuth devMode method endpoint params providersResult authData
        counter resp).finalCall.requests.length = 1 ∧
    ∀ req ∈ (securelyCallAutoAuth devMode method endpoint params providersResult authData
        counter resp).finalCall.requests,
      req.headers = [("Content-Type", "application/json")] := by
  have hscan := providerScan_of_no_match authData providersResult hnone
  refine ⟨?_, ?_, ?_, ?_⟩ <;>
    simp [securelyCallAutoAuth, hscan, securelyCall, callHeaders]

/-- Witness for C2: a provider list with only non-matching entries. -/
theorem securelyCallAutoAuth_no_webauthn_witness :
    (securelyCallAutoAuth false "validate" (some "1") .null
        [⟨"kyc", "sumsub"⟩] ⟨some "abc123"⟩ 1 ⟨true, none, .null⟩).authCalls = 0 ∧
    (securelyCallAutoAuth false "validate" (some "1") .null
        [⟨"kyc", "sumsub"⟩] ⟨some "abc123"⟩ 1 ⟨true, none, .null⟩).scanned
      = [(⟨"kyc", "sumsub"⟩ : Provider)].length ∧
    (securelyCallAutoAuth false "validate" (some "1") .null
        [⟨"kyc", "sumsub"⟩] ⟨some "abc123"⟩ 1 ⟨true, none, .null⟩).finalCall.requests.length = 1 ∧
    ∀ req ∈ (securelyCallAutoAuth false "validate" (some "1") .null
        [⟨"kyc", "sumsub"⟩] ⟨some "abc123"⟩ 1 ⟨true, none, .null⟩).finalCall.requests,
      req.headers = [("Content-Type", "application/json")] :=
  securelyCallAutoAuth_no_webauthn false "validate" (some "1") .null
    [⟨"kyc", "sumsub"⟩] ⟨some "abc123"⟩ 1 ⟨true, none, .null⟩
    (by intro p hp; rw [List.mem_singleton.mp hp]; decide)

/-- C3. The exchange's message handler ignores events from any origin other
than the configured authentication origin: the state (listener, UI surface,
promise) is left exactly as it was; dually, the promise's settlement can
only change on an event whose origin equals the authentication origin
exactly. -/
theorem messageHandler_foreign_origin_noop (authOrigin : String) (useIframe : Bool)
    (event : MessageEvent) (s : ExchangeState) :
    (event.origin ≠ authOrigin → messageHandler authOrigin useIframe event s = s) ∧
    ((messageHandler authOrigin useIframe event s).settled ≠ s.settled →
      event.origin = authOrigin) := by
  by_cases h : event.origin = authOrigin
  · exact ⟨fun hne => absurd h hne, fun _ => h⟩
  · have hb : (event.origin == authOrigin) = false := beq_eq_false_iff_ne.mpr h
    constructor
    · intro _; simp [messageHandler, hb]
    · intro hch; exact absurd (by simp [messageHandler, hb]) hch

/-- Witness for C3: a message from a foreign origin leaves a fresh exchange
untouched. -/
theorem messageHandler_foreign_origin_noop_witness :
    messageHandler "https://auth.securely.id" true
      ⟨"https://evil.example", ⟨some "stolen"⟩⟩ securelyAuthStart = securelyAuthStart :=
  (messageHandler_foreign_origin_noop "https://auth.securely.id" true
    ⟨"https://evil.example", ⟨some "stolen"⟩⟩ securelyAuthStart).1 (by decide)

/-- C4 counterexample. `computeMethodId` does not lower-case: the triples
`(1, 0xABC, 0xdef)` and `(1, 0xabc, 0xDEF)` yield different keys
(`1-ABC-def` versus `1-abc-DEF`), contradicting the claimed
lower-casing normalization. -/
theorem computeMethodId_not_lowercased :
    computeMethodId 1 "0xABC" (some "0xdef") ≠ computeMethodId 1 "0xabc" (some "0xDEF") := by
  decide

/-- C4 amended. `computeMethodId` is deterministic and strips one leading
`0x` from the address and the selector, but preserves letter case: inputs
differing only in the `0x` prefix collapse to the same key, while inputs
differing in case stay distinct. -/
theorem computeMethodId_hex_strip_case_preserved :
    computeMethodId 1 "0xabc" (some "0xdef") = computeMethodId 1 "abc" (some "def") ∧
    computeMethodId 1 "0xabc" (some "0xdef") = "1-abc-def" ∧
    computeMethodId 1 "0xABC" (some "0xdef") = "1-ABC-def" ∧
    computeMethodId 1 "0xabc" (some "0xDEF") = "1-abc-DEF" ∧
    computeMethodId 1 "0xabc" none = "1-abc" := by
  decide

/-- C5. On a non-success HTTP status, `securelyCall` rejects with a
`TransportError` whose message is the server-supplied `error` detail when
present, and the `new Error(undefined)` default (the empty string) when
absent; exactly one request was issued, so nothing is retried, and the
re-thrown error reaches the caller unchanged. -/
theorem securelyCall_http_failure (devMode : Bool) (method : String)
    (endpoint : Option String) (params : JsVal) (token : Option String)
    (counter : Nat) (response : FetchResponse) (h : response.ok = false) :
    (securelyCall devMode method endpoint params token counter response).outcome
      = .error ⟨jsErrorMessage response.error⟩ ∧
    (∀ d, response.error = some d →
      (securelyCall devMode method endpoint params token counter response).outcome
        = .error ⟨d⟩) ∧
    (securelyCall devMode method endpoint params token counter response).requests.length
      = 1 := by
  refine ⟨by simp [securelyCall, h], ?_, by simp [securelyCall]⟩
  intro d hd
  simp [securelyCall, h, hd, jsErrorMessage]

/-- Witness for C5: a status-500 style response with detail `boom`. -/
theorem securelyCall_http_failure_witness :
    (securelyCall false "validate" (some "1") .null none 1
        ⟨false, some "boom", .null⟩).outcome = .error ⟨jsErrorMessage (some "boom")⟩ ∧
    (∀ d, (some "boom" : Option String) = some d →
      (securelyCall false "validate" (some "1") .null none 1
          ⟨false, some "boom", .null⟩).outcome = .error ⟨d⟩) ∧
    (securelyCall false "validate" (some "1") .null none 1
        ⟨false, some "boom", .null⟩).requests.length = 1 :=
  securelyCall_http_failure false "validate" (some "1") .null none 1
    ⟨false, some "boom", .null⟩ rfl

/-- C6. `deepConvertBigIntToString` is idempotent, removes every `bigint`
at every nesting depth (each becomes its exact decimal string), and leaves
every non-bigint leaf unchanged. -/
theorem deepConvertBigIntToString_idempotent_and_complete (v : JsVal) :
    deepConvertBigIntToString (deepConvertBigIntToString v) = deepConvertBigIntToString v ∧
    noBigInt (deepConvertBigIntToString v) = true ∧
    (∀ n : Int, deepConvertBigIntToString (.bigint n) = .str (toString n)) ∧
    deepConvertBigIntToString .null = .null ∧
    (∀ b, deepConvertBigIntToString (.bool b) = .bool b) ∧
    (∀ n : Int, deepConvertBigIntToString (.num n) = .num n) ∧
    (∀ s, deepConvertBigIntToString (.str s) = .str s) :=
  ⟨deepConvert_idem v, deepConvert_noBigInt v,
    fun n => by simp [deepConvertBigIntToString],
    by simp [deepConvertBigIntToString],
    fun b => by simp [deepConvertBigIntToString],
    fun n => by simp [deepConvertBigIntToString],
    fun s => by simp [deepConvertBigIntToString]⟩

/-- C7. Starting from the initial counter value 1, a sequence of
`securelyCall` invocations uses the JSON-RPC ids 1, 2, 3, ... in order:
each call consumes exactly one id at request-construction time, with no
reuse, regardless of whether the call's response succeeds or fails. -/
theorem requestIds_consecutive_from_one (devMode : Bool) (method : String)
    (endpoint : Option String) (params : JsVal) (token : Option String)
    (responses : List FetchResponse) :
    (runCalls devMode method endpoint params token responses
        initialRequestIdCounter).map (fun res => res.requests.map Request.rpcId)
      = (List.range' initialRequestIdCounter responses.length).map
          fun n => [some (JsVal.num (Int.ofNat n))] :=
  runCalls_rpcIds devMode method endpoint params token responses initialRequestIdCounter

/-- C8. The target URL at the failing input: a `null` endpoint does not
collapse to the bare path — JavaScript template interpolation appends the
literal text `null`, yielding `{base}/api/v0null`. The empty endpoint does
collapse to the bare path, and a non-empty endpoint is joined with `/`. -/
theorem buildUrl_null_endpoint_bug :
    buildUrl false none = "https://prod.securely.id/api/v0null" ∧
    buildUrl false (some "") = "https://prod.securely.id/api/v0" ∧
    buildUrl false (some "onboarding") = "https://prod.securely.id/api/v0/onboarding" := by
  refine ⟨?_, ?_, ?_⟩ <;> decide

/-- C9 counterexample. A correctly-originated message whose payload has no
token field does not fail the exchange: the handler resolves the promise
with that payload (`.ok`, not `.error`), and the orchestrator then issues
the final call without any `Authorization` header and completes
successfully. -/
theorem tokenless_message_still_resolves :
    (messageHandler "https://auth.securely.id" true
        ⟨"https://auth.securely.id", ⟨none⟩⟩ securelyAuthStart).settled
      = some (.ok ⟨none⟩) ∧
    (securelyCallAutoAuth false "validate" (some "1") .null
        [⟨"auth", "webauthn"⟩] ⟨none⟩ 1 ⟨true, none, .null⟩).finalCall.outcome
      = .ok .null ∧
    ∀ req ∈ (securelyCallAutoAuth false "validate" (some "1") .null
        [⟨"auth", "webauthn"⟩] ⟨none⟩ 1 ⟨true, none, .null⟩).finalCall.requests,
      req.headers = [("Content-Type", "application/json")] := by
  refine ⟨by decide, rfl, by decide⟩

/-- C9 amended. On a correctly-originated message whose payload lacks a
token field, the exchange resolves with that payload rather than
rejecting, and the orchestrator reads the absent token and issues the
final call with no `Authorization` header — so no malformed credential is
ever attached, but the flow is not failed either. -/
theorem tokenless_message_resolution (authOrigin : String) (useIframe : Bool)
    (event : MessageEvent) (s : ExchangeState) (devMode : Bool) (method : String)
    (endpoint : Option String) (params : JsVal) (providers : List Provider)
    (counter : Nat) (resp : FetchResponse)
    (horigin : event.origin = authOrigin) (htok : event.data.token = none)
    (hpending : s.settled = none) :
    (messageHandler authOrigin useIframe event s).settled = some (.ok event.data) ∧
    ∀ req ∈ (securelyCallAutoAuth devMode method endpoint params providers
        event.data counter resp).finalCall.requests,
      req.headers = [("Content-Type", "application/json")] := by
  constructor
  · have hb : (event.origin == authOrigin) = true := beq_iff_eq.mpr horigin
    simp [messageHandler, hb, settleOnce, hpending]
  · have htokscan := providerScan_token_absent event.data htok providers
    intro req hreq
    simp only [securelyCallAutoAuth, securelyCall, List.mem_singleton] at hreq
    subst hreq
    simp [htokscan, callHeaders]

/-- Witness for C9's amended statement: concrete correctly-originated,
tokenless message on a fresh exchange. -/
theorem tokenless_message_resolution_witness :
    (messageHandler "https://auth.securely.id" true
        ⟨"https://auth.securely.id", ⟨none⟩⟩ securelyAuthStart).settled
      = some (.ok (⟨"https://auth.securely.id", ⟨none⟩⟩ : MessageEvent).data) ∧
    ∀ req ∈ (securelyCallAutoAuth false "validate" (some "1") .null
        [⟨"auth", "webauthn"⟩]
        (⟨"https://auth.securely.id", ⟨none⟩⟩ : MessageEvent).data 1
        ⟨true, none, .null⟩).finalCall.requests,
      req.headers = [("Content-Type", "application/json")] :=
  tokenless_message_resolution "https://auth.securely.id" true
    ⟨"https://auth.securely.id", ⟨none⟩⟩ securelyAuthStart false "validate"
    (some "1") .null [⟨"auth", "webauthn"⟩] 1 ⟨true, none, .null⟩ rfl rfl rfl

/-- C10. In the revisions that spread the Authorization entry
conditionally, the header is present iff the token is truthy: `null`,
`undefined` and the empty string all yield a request with no
`Authorization` header at all, so an empty-string credential is silently
treated as no credential. -/
theorem callHeadersSpread_authorization_iff_truthy :
    (∀ token, (∃ v, ("Authorization", v) ∈ callHeadersSpread token)
        ↔ jsTruthy token = true) ∧
    callHeadersSpread none = [("Content-Type", "application/json")] ∧
    callHeadersSpread (some "") = [("Content-Type", "application/json")] ∧
    ∀ s, callHeadersSpread (some s) =
      if s == "" then [("Content-Type", "application/json")]
      else [("Content-Type", "application/json"), ("Authorization", "Bearer " ++ s)] := by
  refine ⟨?_, rfl, rfl, ?_⟩
  · intro token
    constructor
    · rintro ⟨v, hv⟩
      by_contra hf
      rw [Bool.not_eq_true] at hf
      simp [callHeadersSpread, hf] at hv
    · intro ht
      refine ⟨"Bearer " ++ token.getD "", ?_⟩
      simp [callHeadersSpread, ht]
  · intro s
    by_cases hs : s = ""
    · simp [callHeadersSpread, jsTruthy, hs]
    · have hb : (s == "") = false := beq_eq_false_iff_ne.mpr hs
      simp [callHeadersSpread, jsTruthy, hb]

/-- Witness exercising C10's biconditional at concrete tokens: a non-empty
token carries the header, the empty-string token does not. -/
theorem callHeadersSpread_authorization_iff_truthy_witness :
    jsTruthy (some "abc123") = true ∧
    callHeadersSpread (some "") = [("Content-Type", "application/json")] :=
  ⟨(callHeadersSpread_authorization_iff_truthy.1 (some "abc123")).mp
      ⟨"Bearer " ++ "abc123", by decide⟩,
    callHeadersSpread_authorization_iff_truthy.2.2.1⟩

end Websdk
